import Mathlib

/-!
Shallow embedding of `main.py` of the YT2MP3 repository.

The program is a single sequential pipeline
(`YouTubeDownloader.download_and_convert`) plus a few helpers
(`_sanitize_filename`, `_get_unique_filename`, `_initialize_youtube`)
and an interactive loop (`main`).  External collaborators
(`validators.url`, `pytube.YouTube`, stream download, `moviepy`
conversion, the filesystem) are modelled as oracles: functions that
supply the outcome of each external call.  The pipeline itself is
translated statement by statement from the source.
-/

namespace YT2MP3

/-- A pytube stream descriptor: the fields `download_and_convert` reads. -/
structure StreamD where
  resolution : Nat
  progressive : Bool
  fileExt : String
  filesize : Nat
deriving DecidableEq

/-- A resolved `pytube.YouTube` handle: title plus available streams. -/
structure YT where
  title : String
  streams : List StreamD
deriving DecidableEq

/-- The characters removed by `_sanitize_filename`'s regex `[<>:"/\\|?*]`. -/
def badChars : List Char := ['<', '>', ':', '"', '/', '\\', '|', '?', '*']

/-- `_sanitize_filename`: `re.sub(r'[<>:"/\\|?*]', '', title)` deletes every
occurrence of a character of the class and keeps everything else. -/
def sanitizeFilename (title : String) : String :=
  ⟨title.data.filter (fun c => !(badChars.contains c))⟩

/-- Python's substring test `pat in s`, on character lists. -/
def containsAux (pat : List Char) : List Char → Bool
  | [] => pat.isEmpty
  | c :: rest => pat.isPrefixOf (c :: rest) || containsAux pat rest

/-- Python's `pat in s` for strings. -/
def strContains (s pat : String) : Bool := containsAux pat.data s.data

/-- One step list of Python's `s.split(sep)` (nonempty `sep`), with fuel
equal to the length of the scanned list so the recursion is structural. -/
def pySplitAux (sep : List Char) : Nat → List Char → List Char → List (List Char)
  | _, [], acc => [acc.reverse]
  | 0, s, acc => [acc.reverse ++ s]
  | fuel + 1, c :: rest, acc =>
    if sep.isPrefixOf (c :: rest) then
      acc.reverse :: pySplitAux sep fuel (List.drop (sep.length - 1) rest) []
    else
      pySplitAux sep fuel rest (c :: acc)

/-- Python's `s.split(sep)` for a nonempty separator. -/
def pySplit (s sep : String) : List String :=
  if sep.data.isEmpty then [s]
  else (pySplitAux sep.data s.data.length s.data []).map (fun l => ⟨l⟩)

/-- The candidate filename `f"{base}_{counter}{extension}"` probed by
`_get_unique_filename`. -/
def candidateName (stem ext : String) (c : Nat) : String :=
  stem ++ "_" ++ toString c ++ ext

/-- The `while True` probe loop of `_get_unique_filename`, with explicit
fuel embedding the unbounded loop (any fuel reaching the first free
candidate gives the loop's value). -/
def probeLoop (ex : String → Bool) (stem ext : String) : Nat → Nat → String
  | 0, c => candidateName stem ext c
  | fuel + 1, c =>
    if ex (candidateName stem ext c) then probeLoop ex stem ext fuel (c + 1)
    else candidateName stem ext c

/-- `_get_unique_filename` over an existence oracle `ex` answering
`Path.exists()`: the requested name is `stem ++ ext`. -/
def getUniqueFilename (ex : String → Bool) (fuel : Nat) (stem ext : String) : String :=
  if ex (stem ++ ext) then probeLoop ex stem ext fuel 1
  else stem ++ ext

/-- A sleep performed by `_initialize_youtube`: the fixed 3-second
rate-limit pause after a successful `YouTube(url)` call, or the
exponential-backoff wait after a failed attempt. -/
inductive Ev where
  | throttle : Nat → Ev
  | backoff : Nat → Ev
deriving DecidableEq

/-- Result of `_initialize_youtube`: the returned handle (or `None`),
the sleeps performed in order, and how many `YouTube(url)` resolution
calls were made. -/
structure InitOut where
  yt : Option YT
  sleeps : List Ev
  calls : Nat
deriving DecidableEq

/-- The `for attempt in range(max_retries)` loop of `_initialize_youtube`.
`resolve i` is the outcome of the `YouTube(url)` constructor on attempt
`i` (0-based); `r` counts the remaining iterations, so the current
attempt index is `maxRetries - r`. -/
def initAux (resolve : Nat → Except String YT) (maxRetries : Nat) : Nat → InitOut
  | 0 => ⟨none, [], 0⟩
  | r + 1 =>
    let attempt := maxRetries - (r + 1)
    match resolve attempt with
    | .ok y =>
      if y.title ≠ "" then ⟨some y, [.throttle 3], 1⟩
      else
        let rest := initAux resolve maxRetries r
        ⟨rest.yt, .throttle 3 :: rest.sleeps, rest.calls + 1⟩
    | .error _ =>
      let rest := initAux resolve maxRetries r
      if attempt < maxRetries - 1 then
        ⟨rest.yt, .backoff ((2 ^ attempt) * 3) :: rest.sleeps, rest.calls + 1⟩
      else
        ⟨rest.yt, rest.sleeps, rest.calls + 1⟩

/-- `_initialize_youtube(url, max_retries)`. -/
def initializeYoutube (resolve : Nat → Except String YT) (maxRetries : Nat) : InitOut :=
  initAux resolve maxRetries maxRetries

/-- Ordering used by `streams.order_by('resolution')`: compare streams by
their resolution value. -/
def byRes (a b : StreamD) : Prop := a.resolution ≤ b.resolution

instance : DecidableRel byRes := fun a b => Nat.decLe a.resolution b.resolution

instance : IsTotal StreamD byRes := ⟨fun a b => Nat.le_total a.resolution b.resolution⟩

instance : IsTrans StreamD byRes := ⟨fun _ _ _ h h' => Nat.le_trans h h'⟩

/-- The filter `yt.streams.filter(progressive=True, file_extension='mp4')`. -/
def filterStreams (l : List StreamD) : List StreamD :=
  l.filter (fun s => s.progressive && (s.fileExt == "mp4"))

/-- `order_by('resolution')`: the candidates sorted by resolution ascending
(a stable sort, as pytube delegates to Python's `sorted`). -/
def orderByRes (l : List StreamD) : List StreamD := l.insertionSort byRes

/-- The stream-selection expression of `download_and_convert`:
`stream_filter.order_by('resolution').first()` when `quality == 'lowest'`,
else `stream_filter.order_by('resolution').desc().first()`. -/
def selectStream (l : List StreamD) (quality : String) : Option StreamD :=
  let sf := filterStreams l
  if quality == "lowest" then (orderByRes sf).head?
  else ((orderByRes sf).reverse).head?

/-- `yt.title or default_title`: Python `or` takes the left operand when it
is truthy (a nonempty string), the right one otherwise. -/
def pickTitle (t fallback : String) : String := if t = "" then fallback else t

/-- Lines 86-88: `video_id = url.split('watch?v=')[1].split('&')[0]` and
`default_title = f"youtube_video_{video_id}"`.  `none` models the
`IndexError` raised when `'watch?v='` does not occur in the URL. -/
def fallbackTitle (url : String) : Option String :=
  match pySplit url "watch?v=" with
  | _ :: afterW :: _ => some ("youtube_video_" ++ (pySplit afterW "&").headD "")
  | _ => none

deriving instance DecidableEq for Except

/-- Outcomes of the external calls made by one `download_and_convert`
invocation. -/
structure Oracle where
  validUrl : String → Bool
  resolve : Nat → Except String YT
  download : Except String String
  fsExists : String → Bool
  convert : Except String Unit
  unlinkVideoOk : Bool

/-- State of one run of the `try` block of `download_and_convert` at the
moment control leaves it: the value returned or the exception raised,
the scratch (`temp`) directory contents at that moment, the audio files
written, the number of `YouTube(url)` resolution calls made, and whether
`video.download` was invoked. -/
structure BodyOut where
  result : Except String String
  temp : List String
  outputs : List String
  resolveCalls : Nat
  downloadCalled : Bool
deriving DecidableEq

/-- The `try` block of `download_and_convert` (lines 81-131), translated
statement by statement.  `temp0` is the scratch directory's content when
the call starts. -/
def pipelineBody (o : Oracle) (fuel : Nat) (url quality : String)
    (temp0 : List String) : BodyOut :=
  if !(o.validUrl url) || !(strContains url "youtube.com") then
    ⟨.error "Invalid YouTube URL", temp0, [], 0, false⟩
  else
    match pySplit url "watch?v=" with
    | [] => ⟨.error "list index out of range", temp0, [], 0, false⟩
    | [_] => ⟨.error "list index out of range", temp0, [], 0, false⟩
    | _ :: afterW :: _ =>
      let videoId := (pySplit afterW "&").headD ""
      let defaultTitle := "youtube_video_" ++ videoId
      let init := initializeYoutube o.resolve 3
      match init.yt with
      | none => ⟨.error "Failed to initialize YouTube object", temp0, [], init.calls, false⟩
      | some y =>
        let videoTitle := sanitizeFilename (pickTitle y.title defaultTitle)
        match selectStream y.streams quality with
        | none => ⟨.error "No suitable video stream found", temp0, [], init.calls, false⟩
        | some _video =>
          match o.download with
          | .error e => ⟨.error e, temp0, [], init.calls, true⟩
          | .ok videoPath =>
            let temp1 := temp0 ++ [videoPath]
            let audioPath := getUniqueFilename o.fsExists fuel videoTitle ".mp3"
            match o.convert with
            | .error e => ⟨.error e, temp1, [], init.calls, true⟩
            | .ok _ =>
              if o.unlinkVideoOk then
                ⟨.ok audioPath, temp1.erase videoPath, [audioPath], init.calls, true⟩
              else
                ⟨.error "unlink failed", temp1, [audioPath], init.calls, true⟩

/-- The `finally` block (lines 136-144): unlink each file of the scratch
directory in order, stopping (with the exception swallowed) at the first
failing unlink; when all were removed, remove the directory itself,
again swallowing a failure.  `cu f` tells whether unlinking `f`
succeeds, `rm` whether `rmdir` succeeds.  Returns the remaining files
and whether the directory still exists. -/
def cleanupTemp (cu : String → Bool) (rm : Bool) : List String → List String × Bool
  | [] => if rm then ([], false) else ([], true)
  | f :: fs => if cu f then cleanupTemp cu rm fs else (f :: fs, true)

/-- Observable outcome of one `download_and_convert` call. -/
structure PipeOut where
  result : Option String
  temp : List String
  tempDirExists : Bool
  outputs : List String
  resolveCalls : Nat
  downloadCalled : Bool
deriving DecidableEq

/-- `download_and_convert(url, quality)`: run the `try` block; the
`except` clause turns any raised error into `None`; the `finally`
clause cleans the scratch directory. -/
def downloadAndConvert (o : Oracle) (cu : String → Bool) (rm : Bool) (fuel : Nat)
    (url quality : String) (temp0 : List String) : PipeOut :=
  let b := pipelineBody o fuel url quality temp0
  let c := cleanupTemp cu rm b.temp
  ⟨match b.result with
    | .ok p => some p
    | .error _ => none,
   c.1, c.2, b.outputs, b.resolveCalls, b.downloadCalled⟩

/-- Quality normalisation of `main`: `input(...).lower().strip()`, and
anything other than `highest`/`lowest` falls back to `highest`. -/
def normQuality (q : String) : String :=
  let q' := q.toLower.trim
  if q' = "highest" ∨ q' = "lowest" then q' else "highest"

/-- The interactive loop of `main`, over the list of (URL, quality
answer) prompt pairs.  `dl` is the pipeline call; the loop stops only at
the quit sentinel (or when input is exhausted). -/
def mainLoop (dl : String → String → Option String) : List (String × String) → List (Option String)
  | [] => []
  | (u, q) :: rest =>
    let url := u.trim
    if url.toLower = "q" then []
    else dl url (normQuality q) :: mainLoop dl rest

/-! ## Helper lemmas -/

theorem probeLoop_eq_of_min (ex : String → Bool) (stem ext : String) :
    ∀ (fuel c m : Nat), c ≤ m → m ≤ c + fuel →
    ex (candidateName stem ext m) = false →
    (∀ k, c ≤ k → k < m → ex (candidateName stem ext k) = true) →
    probeLoop ex stem ext fuel c = candidateName stem ext m := by
  intro fuel
  induction fuel with
  | zero =>
    intro c m hcm hmc _ _
    have : c = m := Nat.le_antisymm hcm (by omega)
    simp [probeLoop, this]
  | succ n ih =>
    intro c m hcm hmc hfree hmin
    by_cases hc : c = m
    · subst hc
      simp [probeLoop, hfree]
    · have hlt : c < m := Nat.lt_of_le_of_ne hcm hc
      have hec : ex (candidateName stem ext c) = true := hmin c (Nat.le_refl c) hlt
      simp only [probeLoop, hec, if_true]
      exact ih (c + 1) m hlt (by omega) hfree (fun k hk1 hk2 => hmin k (by omega) hk2)

theorem cleanupTemp_all_ok (cu : String → Bool) (hcu : ∀ f, cu f = true) :
    ∀ l : List String, cleanupTemp cu true l = ([], false) := by
  intro l
  induction l with
  | nil => simp [cleanupTemp]
  | cons f fs ih => simp [cleanupTemp, hcu f, ih]

theorem head_min_of_sorted {L : List StreamD} (hs : L.Sorted byRes) {a : StreamD}
    (ha : L.head? = some a) : ∀ t ∈ L, a.resolution ≤ t.resolution := by
  cases L with
  | nil => cases ha
  | cons x xs =>
    simp only [List.head?_cons, Option.some.injEq] at ha
    subst ha
    rw [List.sorted_cons] at hs
    intro t ht
    rcases List.mem_cons.mp ht with h | h
    · subst h; exact Nat.le_refl _
    · exact hs.1 t h

theorem getLast_max_of_sorted :
    ∀ (L : List StreamD), L.Sorted byRes → ∀ a, L.getLast? = some a →
      ∀ t ∈ L, t.resolution ≤ a.resolution := by
  intro L
  induction L with
  | nil => intro _ a ha; cases ha
  | cons x xs ih =>
    intro hs a ha t ht
    cases xs with
    | nil =>
      simp only [List.getLast?_singleton, Option.some.injEq] at ha
      subst ha
      rcases List.mem_cons.mp ht with h | h
      · subst h; exact Nat.le_refl _
      · cases h
    | cons y ys =>
      rw [List.getLast?_cons_cons] at ha
      rw [List.sorted_cons] at hs
      rcases List.mem_cons.mp ht with h | h
      · subst h
        exact hs.1 a (List.mem_of_getLast?_eq_some ha)
      · exact ih hs.2 a ha t h

/-! ## Claims -/

/-- C4: sanitization removes exactly the characters `< > : " / \ | ? *`
and preserves every other character, in their original order (the output
is a sublist of the input, contains no illegal character, and keeps every
occurrence of every legal character). -/
theorem claim_c4_sanitize (t : String) :
    (sanitizeFilename t).data.Sublist t.data ∧
    (∀ c, c ∈ badChars → c ∉ (sanitizeFilename t).data) ∧
    (∀ c, c ∉ badChars → (sanitizeFilename t).data.count c = t.data.count c) := by
  refine ⟨List.filter_sublist _, ?_, ?_⟩
  · intro c hc hmem
    rw [sanitizeFilename] at hmem
    simp only [List.mem_filter, Bool.not_eq_true'] at hmem
    rcases hmem with ⟨-, hnc⟩
    simp [List.contains] at hnc
    exact hnc hc
  · intro c hc
    rw [sanitizeFilename]
    apply List.count_filter
    simp [List.contains, hc]

/-- C10: when no file exists at the requested output path, the resolver
returns that path unchanged, with no numeric suffix. -/
theorem claim_c10_no_collision (ex : String → Bool) (fuel : Nat) (stem ext : String)
    (h : ex (stem ++ ext) = false) :
    getUniqueFilename ex fuel stem ext = stem ++ ext := by
  simp [getUniqueFilename, h]

/-- Witness for C10: with an empty filesystem, requesting `a.mp3`
returns `a.mp3` itself. -/
theorem claim_c10_no_collision_witness :
    ((fun _ => false) : String → Bool) ("a" ++ ".mp3") = false ∧
    getUniqueFilename (fun _ => false) 3 "a" ".mp3" = "a" ++ ".mp3" :=
  ⟨rfl, claim_c10_no_collision (fun _ => false) 3 "a" ".mp3" rfl⟩

/-- C3: when a file exists at the requested path, the resolver returns
the candidate `stem_m.ext` for the smallest positive integer `m` whose
path does not exist on disk (for any fuel large enough to reach it,
i.e. for the value of the source's unbounded `while` loop). -/
theorem claim_c3_smallest_suffix (ex : String → Bool) (stem ext : String) (fuel m : Nat)
    (hex : ex (stem ++ ext) = true) (h1 : 1 ≤ m)
    (hfree : ex (candidateName stem ext m) = false)
    (hmin : ∀ k, 1 ≤ k → k < m → ex (candidateName stem ext k) = true)
    (hfuel : m ≤ 1 + fuel) :
    getUniqueFilename ex fuel stem ext = candidateName stem ext m := by
  rw [getUniqueFilename, if_pos hex]
  exact probeLoop_eq_of_min ex stem ext fuel 1 m h1 hfuel hfree hmin

/-- Witness for C3: with `song.mp3` and `song_1.mp3` on disk, the
resolver yields `song_2.mp3` — re-invoking after creating `_1` gives
`_2`. -/
theorem claim_c3_smallest_suffix_witness :
    (fun s => s == "song.mp3" || s == "song_1.mp3") ("song" ++ ".mp3") = true ∧
    getUniqueFilename (fun s => s == "song.mp3" || s == "song_1.mp3") 5 "song" ".mp3" =
      candidateName "song" ".mp3" 2 :=
  ⟨rfl,
   claim_c3_smallest_suffix (fun s => s == "song.mp3" || s == "song_1.mp3") "song" ".mp3" 5 2
     rfl (by decide) (by decide)
     (fun k hk1 hk2 => by
       have hk : k = 1 := by omega
       subst hk
       decide)
     (by decide)⟩

/-- C7: when the URL fails generic syntax validation or lacks the
`youtube.com` substring, the pipeline reports the invalid-URL error,
returns `None`, and performs no resolution attempt and no download. -/
theorem claim_c7_invalid_url (o : Oracle) (cu : String → Bool) (rm : Bool) (fuel : Nat)
    (url q : String) (temp0 : List String)
    (h : (o.validUrl url && strContains url "youtube.com") = false) :
    (downloadAndConvert o cu rm fuel url q temp0).result = none ∧
    (pipelineBody o fuel url q temp0).result = .error "Invalid YouTube URL" ∧
    (pipelineBody o fuel url q temp0).resolveCalls = 0 ∧
    (pipelineBody o fuel url q temp0).downloadCalled = false := by
  have hcond : (!(o.validUrl url) || !(strContains url "youtube.com")) = true := by
    cases hv : o.validUrl url <;> cases hc : strContains url "youtube.com" <;> simp_all
  refine ⟨?_, ?_, ?_, ?_⟩ <;> simp [downloadAndConvert, pipelineBody, hcond]

/-- Witness for C7: `"not a url"` (rejected by the validator oracle)
yields `None` with zero resolution calls. -/
theorem claim_c7_invalid_url_witness :
    (({ validUrl := fun _ => false, resolve := fun _ => .error "net",
        download := .error "net", fsExists := fun _ => false,
        convert := .ok (), unlinkVideoOk := true } : Oracle).validUrl "not a url" &&
      strContains "not a url" "youtube.com") = false ∧
    (downloadAndConvert
      { validUrl := fun _ => false, resolve := fun _ => .error "net",
        download := .error "net", fsExists := fun _ => false,
        convert := .ok (), unlinkVideoOk := true }
      (fun _ => true) true 3 "not a url" "highest" []).result = none ∧
    (pipelineBody
      { validUrl := fun _ => false, resolve := fun _ => .error "net",
        download := .error "net", fsExists := fun _ => false,
        convert := .ok (), unlinkVideoOk := true }
      3 "not a url" "highest" []).result = .error "Invalid YouTube URL" ∧
    (pipelineBody
      { validUrl := fun _ => false, resolve := fun _ => .error "net",
        download := .error "net", fsExists := fun _ => false,
        convert := .ok (), unlinkVideoOk := true }
      3 "not a url" "highest" []).resolveCalls = 0 ∧
    (pipelineBody
      { validUrl := fun _ => false, resolve := fun _ => .error "net",
        download := .error "net", fsExists := fun _ => false,
        convert := .ok (), unlinkVideoOk := true }
      3 "not a url" "highest" []).downloadCalled = false := by
  refine ⟨rfl, ?_⟩
  exact claim_c7_invalid_url _ (fun _ => true) true 3 "not a url" "highest" [] rfl

/-- C5: the selector keeps the progressive mp4 candidates ordered by
resolution ascending; quality `lowest` picks a candidate of minimal
resolution and quality `highest` one of maximal resolution. -/
theorem claim_c5_stream_selection (l : List StreamD) (hne : filterStreams l ≠ []) :
    (∃ s, selectStream l "lowest" = some s ∧ s ∈ filterStreams l ∧
      ∀ t ∈ filterStreams l, s.resolution ≤ t.resolution) ∧
    (∃ s, selectStream l "highest" = some s ∧ s ∈ filterStreams l ∧
      ∀ t ∈ filterStreams l, t.resolution ≤ s.resolution) := by
  have hperm : List.Perm (orderByRes (filterStreams l)) (filterStreams l) :=
    List.perm_insertionSort byRes (filterStreams l)
  have hsorted : (orderByRes (filterStreams l)).Sorted byRes :=
    List.sorted_insertionSort byRes (filterStreams l)
  have hLne : orderByRes (filterStreams l) ≠ [] := by
    intro h
    rw [h] at hperm
    exact hne (List.Perm.eq_nil hperm.symm)
  constructor
  · cases hL : orderByRes (filterStreams l) with
    | nil => exact absurd hL hLne
    | cons a rest =>
      refine ⟨a, ?_, ?_, ?_⟩
      · rw [show selectStream l "lowest" = (orderByRes (filterStreams l)).head? from rfl, hL]
        rfl
      · exact hperm.mem_iff.mp (hL ▸ List.mem_cons_self a rest)
      · intro t ht
        have hha : (a :: rest).head? = some a := rfl
        exact head_min_of_sorted (hL ▸ hsorted) hha t (hL ▸ hperm.mem_iff.mpr ht)
  · cases hR : (orderByRes (filterStreams l)).reverse with
    | nil =>
      exact absurd (List.reverse_eq_nil_iff.mp hR) hLne
    | cons b bs =>
      have hlast : (orderByRes (filterStreams l)).getLast? = some b := by
        rw [← List.head?_reverse, hR]
        rfl
      refine ⟨b, ?_, ?_, ?_⟩
      · rw [show selectStream l "highest" =
          ((orderByRes (filterStreams l)).reverse).head? from rfl, hR]
        rfl
      · have hb : b ∈ (orderByRes (filterStreams l)).reverse := hR ▸ List.mem_cons_self b bs
        exact hperm.mem_iff.mp (List.mem_reverse.mp hb)
      · intro t ht
        exact getLast_max_of_sorted _ hsorted b hlast t (hperm.mem_iff.mpr ht)

/-- Witness for C5: for candidates of resolutions 360, 720, 1080, all
progressive mp4, `highest` selects the 1080 stream and `lowest` the 360
stream. -/
theorem claim_c5_stream_selection_witness :
    filterStreams [⟨720, true, "mp4", 10⟩, ⟨360, true, "mp4", 5⟩, ⟨1080, true, "mp4", 20⟩] ≠ [] ∧
    selectStream [⟨720, true, "mp4", 10⟩, ⟨360, true, "mp4", 5⟩, ⟨1080, true, "mp4", 20⟩]
      "highest" = some ⟨1080, true, "mp4", 20⟩ ∧
    selectStream [⟨720, true, "mp4", 10⟩, ⟨360, true, "mp4", 5⟩, ⟨1080, true, "mp4", 20⟩]
      "lowest" = some ⟨360, true, "mp4", 5⟩ ∧
    ((∃ s, selectStream [⟨720, true, "mp4", 10⟩, ⟨360, true, "mp4", 5⟩, ⟨1080, true, "mp4", 20⟩]
        "lowest" = some s ∧
        s ∈ filterStreams [⟨720, true, "mp4", 10⟩, ⟨360, true, "mp4", 5⟩, ⟨1080, true, "mp4", 20⟩] ∧
        ∀ t ∈ filterStreams [⟨720, true, "mp4", 10⟩, ⟨360, true, "mp4", 5⟩, ⟨1080, true, "mp4", 20⟩],
          s.resolution ≤ t.resolution) ∧
     (∃ s, selectStream [⟨720, true, "mp4", 10⟩, ⟨360, true, "mp4", 5⟩, ⟨1080, true, "mp4", 20⟩]
        "highest" = some s ∧
        s ∈ filterStreams [⟨720, true, "mp4", 10⟩, ⟨360, true, "mp4", 5⟩, ⟨1080, true, "mp4", 20⟩] ∧
        ∀ t ∈ filterStreams [⟨720, true, "mp4", 10⟩, ⟨360, true, "mp4", 5⟩, ⟨1080, true, "mp4", 20⟩],
          t.resolution ≤ s.resolution)) :=
  ⟨by decide, by decide, by decide,
   claim_c5_stream_selection
     [⟨720, true, "mp4", 10⟩, ⟨360, true, "mp4", 5⟩, ⟨1080, true, "mp4", 20⟩] (by decide)⟩

/-- C1: metadata resolution makes at most 3 resolution calls; when an
attempt fails it is followed by a `(2 ^ attempt) * 3` second backoff
except after the final attempt; if attempts 1 and 2 raise and attempt 3
succeeds, the sleeps are exactly 3s, 6s (and the post-success 3s
throttle) and attempt 3's handle is returned; if all 3 attempts raise,
no handle is returned (no wait after the final failure) and the pipeline
returns a failure result. -/
theorem claim_c1_retry_policy (resolve : Nat → Except String YT) (e0 e1 e2 : String) (y : YT)
    (o : Oracle) (cu : String → Bool) (rm : Bool) (fuel : Nat)
    (hres : o.resolve = resolve)
    (hval : o.validUrl "https://www.youtube.com/watch?v=dQw4w9WgXcQ" = true) :
    (initializeYoutube resolve 3).calls ≤ 3 ∧
    (resolve 0 = .error e0 → resolve 1 = .error e1 → resolve 2 = .ok y → y.title ≠ "" →
      initializeYoutube resolve 3 =
        ⟨some y, [.backoff ((2 ^ 0) * 3), .backoff ((2 ^ 1) * 3), .throttle 3], 3⟩) ∧
    (resolve 0 = .error e0 → resolve 1 = .error e1 → resolve 2 = .error e2 →
      initializeYoutube resolve 3 = ⟨none, [.backoff ((2 ^ 0) * 3), .backoff ((2 ^ 1) * 3)], 3⟩ ∧
      (downloadAndConvert o cu rm fuel
        "https://www.youtube.com/watch?v=dQw4w9WgXcQ" "highest" []).result = none) := by
  have hcalls : ∀ r, (initAux resolve 3 r).calls ≤ r := by
    intro r
    induction r with
    | zero => simp [initAux]
    | succ n ih =>
      rw [initAux]
      cases hr : resolve (3 - (n + 1)) with
      | ok yy =>
        by_cases hty : yy.title ≠ ""
        · simp [hty]
        · simp only [hty, if_false]
          simpa using Nat.succ_le_succ ih
      | error e =>
        by_cases hat : 3 - (n + 1) < 3 - 1
        · simp only [hat, if_true]
          simpa using Nat.succ_le_succ ih
        · simp only [hat, if_false]
          simpa using Nat.succ_le_succ ih
  refine ⟨hcalls 3, ?_, ?_⟩
  · intro h0 h1 h2 hty
    simp [initializeYoutube, initAux, h0, h1, h2, hty]
  · intro h0 h1 h2
    have hinit : initializeYoutube resolve 3 =
        ⟨none, [.backoff ((2 ^ 0) * 3), .backoff ((2 ^ 1) * 3)], 3⟩ := by
      simp [initializeYoutube, initAux, h0, h1, h2]
    refine ⟨hinit, ?_⟩
    have hsc : strContains "https://www.youtube.com/watch?v=dQw4w9WgXcQ" "youtube.com" = true := by
      decide
    have hsplit : pySplit "https://www.youtube.com/watch?v=dQw4w9WgXcQ" "watch?v=" =
        ["https://www.youtube.com/", "dQw4w9WgXcQ"] := by decide
    simp [downloadAndConvert, pipelineBody, hval, hsc, hsplit, hres, hinit]

/-- Witness for C1: an oracle whose three resolution attempts all raise;
the theorem applies with its hypotheses discharged by `rfl`. -/
theorem claim_c1_retry_policy_witness :
    ({ validUrl := fun _ => true, resolve := fun _ => .error "net",
       download := .error "net", fsExists := fun _ => false,
       convert := .ok (), unlinkVideoOk := true } : Oracle).resolve =
      (fun _ => (.error "net" : Except String YT)) ∧
    ({ validUrl := fun _ => true, resolve := fun _ => .error "net",
       download := .error "net", fsExists := fun _ => false,
       convert := .ok (), unlinkVideoOk := true } : Oracle).validUrl
      "https://www.youtube.com/watch?v=dQw4w9WgXcQ" = true ∧
    ((initializeYoutube (fun _ => (.error "net" : Except String YT)) 3).calls ≤ 3 ∧
     ((fun _ => (.error "net" : Except String YT)) 0 = .error "net" →
       (fun _ => (.error "net" : Except String YT)) 1 = .error "net" →
       (fun _ => (.error "net" : Except String YT)) 2 = .ok (⟨"T", []⟩ : YT) →
       (⟨"T", []⟩ : YT).title ≠ "" →
       initializeYoutube (fun _ => (.error "net" : Except String YT)) 3 =
         ⟨some ⟨"T", []⟩, [.backoff ((2 ^ 0) * 3), .backoff ((2 ^ 1) * 3), .throttle 3], 3⟩) ∧
     ((fun _ => (.error "net" : Except String YT)) 0 = .error "net" →
       (fun _ => (.error "net" : Except String YT)) 1 = .error "net" →
       (fun _ => (.error "net" : Except String YT)) 2 = .error "net" →
       initializeYoutube (fun _ => (.error "net" : Except String YT)) 3 =
         ⟨none, [.backoff ((2 ^ 0) * 3), .backoff ((2 ^ 1) * 3)], 3⟩ ∧
       (downloadAndConvert
         { validUrl := fun _ => true, resolve := fun _ => .error "net",
           download := .error "net", fsExists := fun _ => false,
           convert := .ok (), unlinkVideoOk := true }
         (fun _ => true) true 4
         "https://www.youtube.com/watch?v=dQw4w9WgXcQ" "highest" []).result = none)) :=
  ⟨rfl, rfl,
   claim_c1_retry_policy (fun _ => .error "net") "net" "net" "net" ⟨"T", []⟩
     { validUrl := fun _ => true, resolve := fun _ => .error "net",
       download := .error "net", fsExists := fun _ => false,
       convert := .ok (), unlinkVideoOk := true }
     (fun _ => true) true 4 rfl rfl⟩

/-- C2: for every invocation and every outcome, the `finally` cleanup
leaves the scratch directory empty and removed (when its filesystem
operations succeed) before the call returns, and the primary result is
the value computed by the `try` block alone — i.e. it is identical under
any cleanup oracle, so cleanup failures are swallowed and never change
it. -/
theorem claim_c2_scratch_cleanup (o : Oracle) (cu cu2 : String → Bool) (rm2 : Bool)
    (fuel : Nat) (url q : String) (temp0 : List String)
    (hcu : ∀ f, cu f = true) :
    (downloadAndConvert o cu true fuel url q temp0).temp = [] ∧
    (downloadAndConvert o cu true fuel url q temp0).tempDirExists = false ∧
    (downloadAndConvert o cu2 rm2 fuel url q temp0).result =
      (match (pipelineBody o fuel url q temp0).result with
        | .ok p => some p
        | .error _ => none) ∧
    (downloadAndConvert o cu2 rm2 fuel url q temp0).result =
      (downloadAndConvert o cu true fuel url q temp0).result := by
  have h1 : (downloadAndConvert o cu true fuel url q temp0).temp =
      (cleanupTemp cu true (pipelineBody o fuel url q temp0).temp).1 := rfl
  have h2 : (downloadAndConvert o cu true fuel url q temp0).tempDirExists =
      (cleanupTemp cu true (pipelineBody o fuel url q temp0).temp).2 := rfl
  refine ⟨?_, ?_, rfl, rfl⟩
  · rw [h1, cleanupTemp_all_ok cu hcu]
  · rw [h2, cleanupTemp_all_ok cu hcu]

/-- Witness for C2: a run in which every step succeeds, compared against
a run whose cleanup oracle fails on every file: the scratch directory
ends empty and removed, and the result is unaffected by the cleanup
oracle. -/
theorem claim_c2_scratch_cleanup_witness :
    (∀ f, ((fun _ => true) : String → Bool) f = true) ∧
    ((downloadAndConvert
       { validUrl := fun _ => true,
         resolve := fun _ => .ok ⟨"My Title", [⟨360, true, "mp4", 5⟩]⟩,
         download := .ok "vid.mp4", fsExists := fun _ => false,
         convert := .ok (), unlinkVideoOk := true }
       (fun _ => true) true 4 "https://www.youtube.com/watch?v=abc" "highest"
       ["stale.mp4"]).temp = [] ∧
     (downloadAndConvert
       { validUrl := fun _ => true,
         resolve := fun _ => .ok ⟨"My Title", [⟨360, true, "mp4", 5⟩]⟩,
         download := .ok "vid.mp4", fsExists := fun _ => false,
         convert := .ok (), unlinkVideoOk := true }
       (fun _ => true) true 4 "https://www.youtube.com/watch?v=abc" "highest"
       ["stale.mp4"]).tempDirExists = false ∧
     (downloadAndConvert
       { validUrl := fun _ => true,
         resolve := fun _ => .ok ⟨"My Title", [⟨360, true, "mp4", 5⟩]⟩,
         download := .ok "vid.mp4", fsExists := fun _ => false,
         convert := .ok (), unlinkVideoOk := true }
       (fun _ => false) false 4 "https://www.youtube.com/watch?v=abc" "highest"
       ["stale.mp4"]).result =
       (match (pipelineBody
         { validUrl := fun _ => true,
           resolve := fun _ => .ok ⟨"My Title", [⟨360, true, "mp4", 5⟩]⟩,
           download := .ok "vid.mp4", fsExists := fun _ => false,
           convert := .ok (), unlinkVideoOk := true }
         4 "https://www.youtube.com/watch?v=abc" "highest" ["stale.mp4"]).result with
         | .ok p => some p
         | .error _ => none) ∧
     (downloadAndConvert
       { validUrl := fun _ => true,
         resolve := fun _ => .ok ⟨"My Title", [⟨360, true, "mp4", 5⟩]⟩,
         download := .ok "vid.mp4", fsExists := fun _ => false,
         convert := .ok (), unlinkVideoOk := true }
       (fun _ => false) false 4 "https://www.youtube.com/watch?v=abc" "highest"
       ["stale.mp4"]).result =
       (downloadAndConvert
         { validUrl := fun _ => true,
           resolve := fun _ => .ok ⟨"My Title", [⟨360, true, "mp4", 5⟩]⟩,
           download := .ok "vid.mp4", fsExists := fun _ => false,
           convert := .ok (), unlinkVideoOk := true }
         (fun _ => true) true 4 "https://www.youtube.com/watch?v=abc" "highest"
         ["stale.mp4"]).result) :=
  ⟨fun _ => rfl,
   claim_c2_scratch_cleanup
     { validUrl := fun _ => true,
       resolve := fun _ => .ok ⟨"My Title", [⟨360, true, "mp4", 5⟩]⟩,
       download := .ok "vid.mp4", fsExists := fun _ => false,
       convert := .ok (), unlinkVideoOk := true }
     (fun _ => true) (fun _ => false) false 4 "https://www.youtube.com/watch?v=abc" "highest"
     ["stale.mp4"] (fun _ => rfl)⟩

theorem selectStream_eq_none (l : List StreamD) (q : String)
    (h : filterStreams l = []) : selectStream l q = none := by
  simp [selectStream, h, orderByRes]

/-- C6: when the filtered candidate set has no progressive mp4 stream,
the pipeline raises the no-suitable-stream error and returns `None`; the
download step is never invoked and no scratch file is created. -/
theorem claim_c6_no_stream (o : Oracle) (cu : String → Bool) (rm : Bool) (fuel : Nat)
    (url q a b : String) (rest : List String) (y : YT)
    (hval : o.validUrl url = true)
    (hsc : strContains url "youtube.com" = true)
    (hsplit : pySplit url "watch?v=" = a :: b :: rest)
    (hinit : (initializeYoutube o.resolve 3).yt = some y)
    (hempty : filterStreams y.streams = []) :
    (pipelineBody o fuel url q []).result = .error "No suitable video stream found" ∧
    (pipelineBody o fuel url q []).downloadCalled = false ∧
    (pipelineBody o fuel url q []).temp = [] ∧
    (downloadAndConvert o cu rm fuel url q []).result = none := by
  have hsel := selectStream_eq_none y.streams q hempty
  refine ⟨?_, ?_, ?_, ?_⟩ <;>
    simp [pipelineBody, downloadAndConvert, hval, hsc, hsplit, hinit, hsel]

/-- Witness for C6: a handle offering only a non-progressive stream; the
pipeline reports the no-stream error without downloading. -/
theorem claim_c6_no_stream_witness :
    ({ validUrl := fun _ => true,
       resolve := fun _ => .ok ⟨"T", [⟨480, false, "mp4", 7⟩]⟩,
       download := .ok "vid.mp4", fsExists := fun _ => false,
       convert := .ok (), unlinkVideoOk := true } : Oracle).validUrl
      "https://www.youtube.com/watch?v=abc" = true ∧
    strContains "https://www.youtube.com/watch?v=abc" "youtube.com" = true ∧
    pySplit "https://www.youtube.com/watch?v=abc" "watch?v=" =
      "https://www.youtube.com/" :: "abc" :: [] ∧
    (initializeYoutube
      ({ validUrl := fun _ => true,
         resolve := fun _ => .ok ⟨"T", [⟨480, false, "mp4", 7⟩]⟩,
         download := .ok "vid.mp4", fsExists := fun _ => false,
         convert := .ok (), unlinkVideoOk := true } : Oracle).resolve 3).yt =
      some ⟨"T", [⟨480, false, "mp4", 7⟩]⟩ ∧
    filterStreams [⟨480, false, "mp4", 7⟩] = [] ∧
    ((pipelineBody
       { validUrl := fun _ => true,
         resolve := fun _ => .ok ⟨"T", [⟨480, false, "mp4", 7⟩]⟩,
         download := .ok "vid.mp4", fsExists := fun _ => false,
         convert := .ok (), unlinkVideoOk := true }
       3 "https://www.youtube.com/watch?v=abc" "highest" []).result =
        .error "No suitable video stream found" ∧
     (pipelineBody
       { validUrl := fun _ => true,
         resolve := fun _ => .ok ⟨"T", [⟨480, false, "mp4", 7⟩]⟩,
         download := .ok "vid.mp4", fsExists := fun _ => false,
         convert := .ok (), unlinkVideoOk := true }
       3 "https://www.youtube.com/watch?v=abc" "highest" []).downloadCalled = false ∧
     (pipelineBody
       { validUrl := fun _ => true,
         resolve := fun _ => .ok ⟨"T", [⟨480, false, "mp4", 7⟩]⟩,
         download := .ok "vid.mp4", fsExists := fun _ => false,
         convert := .ok (), unlinkVideoOk := true }
       3 "https://www.youtube.com/watch?v=abc" "highest" []).temp = [] ∧
     (downloadAndConvert
       { validUrl := fun _ => true,
         resolve := fun _ => .ok ⟨"T", [⟨480, false, "mp4", 7⟩]⟩,
         download := .ok "vid.mp4", fsExists := fun _ => false,
         convert := .ok (), unlinkVideoOk := true }
       (fun _ => true) true 3 "https://www.youtube.com/watch?v=abc" "highest" []).result =
        none) :=
  ⟨rfl, by decide, by decide, rfl, by decide,
   claim_c6_no_stream
     { validUrl := fun _ => true,
       resolve := fun _ => .ok ⟨"T", [⟨480, false, "mp4", 7⟩]⟩,
       download := .ok "vid.mp4", fsExists := fun _ => false,
       convert := .ok (), unlinkVideoOk := true }
     (fun _ => true) true 3 "https://www.youtube.com/watch?v=abc" "highest"
     "https://www.youtube.com/" "abc" [] ⟨"T", [⟨480, false, "mp4", 7⟩]⟩
     rfl (by decide) (by decide) rfl (by decide)⟩

/-- C8 counterexample: for the validated URL
`https://www.youtube.com/watch?v=abc` the code's fallback title is
`youtube_video_abc`, not the claimed `video_abc`. -/
theorem claim_c8_counterexample :
    fallbackTitle "https://www.youtube.com/watch?v=abc" = some "youtube_video_abc" ∧
    ¬ fallbackTitle "https://www.youtube.com/watch?v=abc" = some "video_abc" := by
  refine ⟨by decide, by decide⟩

/-- C8 amended: for every URL containing `watch?v=`, the fallback title
is `"youtube_video_<id>"` where `<id>` is the segment between the first
`watch?v=` and the following `&`; the fallback is used only when the
resolved title is empty (`yt.title or default_title`). -/
theorem claim_c8_fallback_title (url a b : String) (rest : List String) (t fb : String)
    (hsplit : pySplit url "watch?v=" = a :: b :: rest) :
    fallbackTitle url = some ("youtube_video_" ++ (pySplit b "&").headD "") ∧
    (t ≠ "" → pickTitle t fb = t) ∧
    pickTitle "" fb = fb := by
  refine ⟨?_, ?_, ?_⟩
  · simp [fallbackTitle, hsplit]
  · intro ht
    simp [pickTitle, ht]
  · simp [pickTitle]

/-- Witness for the amended C8 at a concrete URL and title. -/
theorem claim_c8_fallback_title_witness :
    pySplit "https://www.youtube.com/watch?v=abc&t=7" "watch?v=" =
      "https://www.youtube.com/" :: "abc&t=7" :: [] ∧
    (fallbackTitle "https://www.youtube.com/watch?v=abc&t=7" =
      some ("youtube_video_" ++ (pySplit "abc&t=7" "&").headD "") ∧
     (("Real Title" : String) ≠ "" → pickTitle "Real Title" "youtube_video_abc" = "Real Title") ∧
     pickTitle "" "youtube_video_abc" = "youtube_video_abc") :=
  ⟨by decide,
   claim_c8_fallback_title "https://www.youtube.com/watch?v=abc&t=7"
     "https://www.youtube.com/" "abc&t=7" [] "Real Title" "youtube_video_abc" (by decide)⟩

/-- C9: the pipeline's result is exactly the `try` block's value with
every raised error converted to `None` at the boundary (no error escapes
past a single request), and the interactive loop processes every prompt
pair before the first quit sentinel — one pipeline call each, whatever
the outcome — and stops only at the sentinel. -/
theorem claim_c9_error_boundary (o : Oracle) (cu : String → Bool) (rm : Bool) (fuel : Nat)
    (url q : String) (temp0 : List String)
    (dl : String → String → Option String) (inputs : List (String × String)) :
    (downloadAndConvert o cu rm fuel url q temp0).result =
      (match (pipelineBody o fuel url q temp0).result with
        | .ok p => some p
        | .error _ => none) ∧
    mainLoop dl inputs =
      (inputs.takeWhile (fun p => !(p.1.trim.toLower == "q"))).map
        (fun p => dl p.1.trim (normQuality p.2)) := by
  refine ⟨rfl, ?_⟩
  induction inputs with
  | nil => rfl
  | cons p rest ih =>
    obtain ⟨u, q'⟩ := p
    by_cases h : u.trim.toLower = "q"
    · simp [mainLoop, h, List.takeWhile_cons]
    · simp [mainLoop, h, List.takeWhile_cons, ih]

end YT2MP3
